import Mathlib

set_option maxRecDepth 4000
set_option synthInstance.maxSize 1000000
set_option synthInstance.maxHeartbeats 1000000

/-!
Shallow embedding of the vec-tree crate (src/lib.rs): a generation-checked
arena-backed n-ary tree with intrusive parent/sibling/child links, together
with theorems checking the specification claims against the code.

Rust panics are modelled as Except.error values; for mutating operations the
error carries the tree state reached at the moment of the abrupt failure, so
that atomicity properties are statable.  Machine integers (usize, u32) are
modelled as Nat; the single subtraction on the u32 depth counter is guarded
explicitly so that underflow is visible as an abrupt failure.
-/

/-- Decidable equality of Except results, used to evaluate concrete scenarios. -/
instance instDecEqExcept {E A : Type} [DecidableEq E] [DecidableEq A] :
    DecidableEq (Except E A) := fun x y =>
  match x, y with
  | Except.error e, Except.error f => decidable_of_iff (e = f) (by simp)
  | Except.ok a, Except.ok b => decidable_of_iff (a = b) (by simp)
  | Except.error _, Except.ok _ => isFalse (fun h => Except.noConfusion h)
  | Except.ok _, Except.error _ => isFalse (fun h => Except.noConfusion h)

/-- A generational index (src: generational-arena Index re-exported by lib.rs):
slot index paired with the generation at insertion time. -/
structure Ix where
  index : Nat
  generation : Nat
  deriving DecidableEq, Repr

/-- One arena slot: either free (holding the next free slot in the free list)
or occupied by a value tagged with its generation.
Modelled from the generational-arena dependency (spec section 6 contract). -/
inductive Entry (V : Type) where
  | free (next_free : Option Nat)
  | occupied (generation : Nat) (value : V)
  deriving DecidableEq, Repr

/-- The slot arena. Modelled from the generational-arena dependency
(spec section 6 contract). -/
structure Arena (V : Type) where
  items : List (Entry V)
  generation : Nat
  free_list_head : Option Nat
  len : Nat
  deriving DecidableEq, Repr

namespace Arena

variable {V : Type}

/-- The free-slot run appended by reserve: slots start, start+1, ... each
pointing at the next, the last pointing at the previous free-list head. -/
def freeChain : Nat → Nat → Option Nat → List (Entry V)
  | _, 0, _ => []
  | _, 1, old => [Entry.free old]
  | start, n+2, old => Entry.free (some (start+1)) :: freeChain (start+1) (n+1) old

/-- Modelled from generational-arena: extend storage by additional free slots
chained onto the front of the free list. -/
def reserve (a : Arena V) (additional : Nat) : Arena V :=
  { a with
    items := a.items ++ freeChain a.items.length additional a.free_list_head
    free_list_head := some a.items.length }

/-- Modelled from generational-arena: an arena of n free slots. -/
def with_capacity (n : Nat) : Arena V :=
  reserve { items := [], generation := 0, free_list_head := none, len := 0 } n

/-- Modelled from generational-arena: generation-checked lookup. -/
def get (a : Arena V) (i : Ix) : Option V :=
  match a.items[i.index]? with
  | some (Entry.occupied g v) => if g = i.generation then some v else none
  | _ => none

/-- Modelled from generational-arena: insertion into the head free slot, never
growing; on a full arena the value is handed back. -/
def try_insert (a : Arena V) (v : V) : Sum (Ix × Arena V) V :=
  match a.free_list_head with
  | none => Sum.inr v
  | some i =>
    match a.items[i]? with
    | some (Entry.free nf) =>
      Sum.inl (⟨i, a.generation⟩,
        { a with
          items := a.items.set i (Entry.occupied a.generation v)
          free_list_head := nf
          len := a.len + 1 })
    | _ => Sum.inr v

/-- Modelled from generational-arena: insertion that doubles the storage when
full; the residual failure (only possible from zero capacity) is the abrupt
failure of the expect call in insert_slow_path. -/
def insert (a : Arena V) (v : V) : Except String (Ix × Arena V) :=
  match a.try_insert v with
  | Sum.inl r => Except.ok r
  | Sum.inr v1 =>
    match (a.reserve a.items.length).try_insert v1 with
    | Sum.inl r => Except.ok r
    | Sum.inr _ => Except.error "inserting will always succeed after reserving additional space"

/-- Modelled from generational-arena: generation-checked removal, freeing the
slot onto the free list and advancing the global generation counter. -/
def remove (a : Arena V) (i : Ix) : Option (V × Arena V) :=
  match a.items[i.index]? with
  | some (Entry.occupied g v) =>
    if g = i.generation then
      some (v,
        { a with
          items := a.items.set i.index (Entry.free a.free_list_head)
          generation := a.generation + 1
          free_list_head := some i.index
          len := a.len - 1 })
    else none
  | _ => none

/-- Overwrite the value held in a live slot, keeping its generation: the
effect of writing through a mutable borrow obtained from get_mut or get2_mut.
Leaves the arena unchanged when the handle is stale (callers check first). -/
def put (a : Arena V) (i : Ix) (v : V) : Arena V :=
  match a.items[i.index]? with
  | some (Entry.occupied g _) =>
    if g = i.generation then { a with items := a.items.set i.index (Entry.occupied g v) }
    else a
  | _ => a

/-- Modelled from generational-arena get2_mut: simultaneous access to two
slots; asserts (fails abruptly) when both handles are identical, and on equal
slots the handle with the smaller generation is reported absent. -/
def get2 (a : Arena V) (i1 i2 : Ix) : Except String (Option V × Option V) :=
  if i1.index = i2.index then
    if i1.generation = i2.generation then
      Except.error "assertion failed: i1.generation != i2.generation"
    else if i2.generation < i1.generation then
      Except.ok (a.get i1, none)
    else
      Except.ok (none, a.get i2)
  else
    Except.ok (a.get i1, a.get i2)

end Arena

/-- src: enum NodeEdge, the traversal state of TraverseIter. -/
inductive NodeEdge where
  | Start (i : Ix)
  | End (i : Ix)
  deriving DecidableEq, Repr

/-- src: enum NodeEdgeWithDepth; depth is a u32 in the source, modelled as
Nat with the one subtraction guarded (see traverse_with_depth_step). -/
inductive NodeEdgeWithDepth where
  | Start (i : Ix) (depth : Nat)
  | End (i : Ix) (depth : Nat)
  deriving DecidableEq, Repr

/-- src: struct Node, the intrusive record stored per tree node. -/
structure Node (V : Type) where
  parent : Option Ix
  previous_sibling : Option Ix
  next_sibling : Option Ix
  first_child : Option Ix
  last_child : Option Ix
  data : V
  deriving DecidableEq, Repr

/-- src: struct VecTree, an arena of nodes plus the optional root handle. -/
structure VecTree (V : Type) where
  nodes : Arena (Node V)
  root_index : Option Ix
  deriving DecidableEq, Repr

namespace VecTree

variable {V : Type}

/-- src: DEFAULT_CAPACITY. -/
def DEFAULT_CAPACITY : Nat := 4

/-- src: VecTree::with_capacity. -/
def with_capacity (V : Type) (n : Nat) : VecTree V :=
  { nodes := Arena.with_capacity n, root_index := none }

/-- src: VecTree::new. -/
def new (V : Type) : VecTree V := with_capacity V DEFAULT_CAPACITY

/-- src: VecTree::contains. -/
def contains (t : VecTree V) (i : Ix) : Bool := (t.nodes.get i).isSome

/-- src: VecTree::get (payload projection of a generation-checked lookup). -/
def get (t : VecTree V) (i : Ix) : Option V := (t.nodes.get i).map Node.data

/-- src: VecTree::get_mut; as a lookup it projects exactly like get, yielding
nothing for a stale handle. -/
def get_mut (t : VecTree V) (i : Ix) : Option V := (t.nodes.get i).map Node.data

/-- src: VecTree::parent. -/
def parent (t : VecTree V) (i : Ix) : Option Ix :=
  match t.nodes.get i with
  | some node => node.parent
  | none => none

/-- src: VecTree::get_root_index. -/
def get_root_index (t : VecTree V) : Option Ix := t.root_index

/-- The infallible read self.nodes[i] (ops::Index, get().unwrap()): fails
abruptly on a stale handle. -/
def read (t : VecTree V) (i : Ix) : Except String (Node V) :=
  match t.nodes.get i with
  | some node => Except.ok node
  | none => Except.error "called Option::unwrap() on a None value"

/-- A field update through self.nodes[i] (ops::IndexMut): fails abruptly on a
stale handle, carrying the tree state at the failure. -/
def write (t : VecTree V) (i : Ix) (f : Node V → Node V) :
    Except (String × VecTree V) (VecTree V) :=
  match t.nodes.get i with
  | some node => Except.ok { t with nodes := t.nodes.put i (f node) }
  | none => Except.error ("called Option::unwrap() on a None value", t)

/-- src: VecTree::detach. Clears parent and sibling links of the node and
re-links its former neighbors (or the parent end pointers). -/
def detach (t : VecTree V) (i : Ix) : Except (String × VecTree V) (VecTree V) :=
  match t.nodes.get i with
  | none => Except.error ("called Option::unwrap() on a None value", t)
  | some node => do
    let old_parent := node.parent
    let old_prev := node.previous_sibling
    let old_next := node.next_sibling
    let cleared := { node with parent := none, previous_sibling := none, next_sibling := none }
    let t1 : VecTree V := { t with nodes := t.nodes.put i cleared }
    let t2 ← match old_next with
      | some ns => t1.write ns (fun n => { n with previous_sibling := old_prev })
      | none => match old_parent with
        | some p => t1.write p (fun n => { n with last_child := old_prev })
        | none => Except.ok t1
    match old_prev with
    | some ps => t2.write ps (fun n => { n with next_sibling := old_next })
    | none => match old_parent with
      | some p => t2.write p (fun n => { n with first_child := old_next })
      | none => Except.ok t2

/-- src: VecTree::append_child. Detaches the child first, then validates both
handles through the arena get2_mut access and links the child as the last
child of the target node. -/
def append_child (t0 : VecTree V) (node_id new_child_id : Ix) :
    Except (String × VecTree V) (VecTree V) := do
  let t ← t0.detach new_child_id
  let pair ← match t.nodes.get2 node_id new_child_id with
    | Except.error msg => Except.error (msg, t)
    | Except.ok p => Except.ok p
  match pair with
  | (none, _) => Except.error ("The node you are trying to append to is invalid", t)
  | (_, none) => Except.error ("The node you are trying to append is invalid", t)
  | (some node, some new_child_node) =>
    let last_child_opt := node.last_child
    let node1 := { node with last_child := some new_child_id }
    let child1 := { new_child_node with parent := some node_id }
    match last_child_opt with
    | some last_child =>
      let child2 := { child1 with previous_sibling := some last_child }
      let t1 : VecTree V :=
        { t with nodes := (t.nodes.put new_child_id child2).put node_id node1 }
      t1.write last_child (fun n => { n with next_sibling := some new_child_id })
    | none =>
      let node2 := { node1 with first_child := some new_child_id }
      Except.ok { t with nodes := (t.nodes.put new_child_id child1).put node_id node2 }

/-- src: VecTree::try_create_node. -/
def try_create_node (t : VecTree V) (data : V) : Sum (Ix × VecTree V) V :=
  match t.nodes.try_insert
      { parent := none, first_child := none, last_child := none,
        previous_sibling := none, next_sibling := none, data := data } with
  | Sum.inl (i, a) => Sum.inl (i, { t with nodes := a })
  | Sum.inr n => Sum.inr n.data

/-- src: VecTree::create_node. -/
def create_node (t : VecTree V) (data : V) : Except String (Ix × VecTree V) :=
  match t.nodes.insert
      { parent := none, first_child := none, last_child := none,
        previous_sibling := none, next_sibling := none, data := data } with
  | Except.ok (i, a) => Except.ok (i, { t with nodes := a })
  | Except.error msg => Except.error msg

/-- src: VecTree::try_insert: create the node without growing, then append it
under the given parent. -/
def try_insert (t : VecTree V) (data : V) (parent_id : Ix) :
    Except (String × VecTree V) (Sum Ix V × VecTree V) :=
  match t.try_create_node data with
  | Sum.inr v => Except.ok (Sum.inr v, t)
  | Sum.inl (node, t1) => do
    let t2 ← t1.append_child parent_id node
    Except.ok (Sum.inl node, t2)

/-- src: VecTree::insert: create the node (growing if needed), then append it
under the given parent. -/
def insert (t : VecTree V) (data : V) (parent_id : Ix) :
    Except (String × VecTree V) (Ix × VecTree V) :=
  match t.create_node data with
  | Except.error msg => Except.error (msg, t)
  | Except.ok (node, t1) => do
    let t2 ← t1.append_child parent_id node
    Except.ok (node, t2)

/-- src: the body of TraverseIter::next computing the successor state of the
edge just yielded; the arena index lookups fail abruptly on stale handles, and
a missing parent during backtracking maps to end-of-iteration. -/
def traverse_step (t : VecTree V) (root : Ix) :
    NodeEdge → Except String (Option NodeEdge)
  | NodeEdge.Start node_id => do
    let node ← t.read node_id
    match node.first_child with
    | some first_child => Except.ok (some (NodeEdge.Start first_child))
    | none => Except.ok (some (NodeEdge.End node_id))
  | NodeEdge.End node_id =>
    if node_id = root then Except.ok none
    else do
      let node ← t.read node_id
      match node.next_sibling with
      | some next_sibling => Except.ok (some (NodeEdge.Start next_sibling))
      | none =>
        match node.parent with
        | some p => Except.ok (some (NodeEdge.End p))
        | none => Except.ok none

/-- Driving TraverseIter to exhaustion from a given state, collecting every
yielded edge; fueled because the source loop is unbounded. -/
def traverse_run (t : VecTree V) (root : Ix) :
    Nat → Option NodeEdge → Except String (List NodeEdge)
  | _, none => Except.ok []
  | 0, some _ => Except.error "fuel exhausted"
  | fuel+1, some e => do
    let nxt ← traverse_step t root e
    let rest ← traverse_run t root fuel nxt
    Except.ok (e :: rest)

/-- src: VecTree::traverse, run to exhaustion (initial state Start(node_id)). -/
def traverse (t : VecTree V) (i : Ix) (fuel : Nat) : Except String (List NodeEdge) :=
  traverse_run t i fuel (some (NodeEdge.Start i))

/-- src: DescendantsIter::next looped to exhaustion: surfaces exactly the
Start edges of the underlying traversal. -/
def descendants (t : VecTree V) (i : Ix) (fuel : Nat) : Except String (List Ix) := do
  let edges ← t.traverse i fuel
  Except.ok (edges.filterMap (fun e =>
    match e with
    | NodeEdge.Start n => some n
    | NodeEdge.End _ => none))

/-- src: the body of TraverseWithDepthIter::next computing the successor
state.  The source computes depth - 1 on a u32 when backtracking to a parent;
evaluating it at depth 0 is the arithmetic underflow that fails abruptly in a
checked build, modelled here as an error. -/
def traverse_with_depth_step (t : VecTree V) (root : Ix) :
    NodeEdgeWithDepth → Except String (Option NodeEdgeWithDepth)
  | NodeEdgeWithDepth.Start node_id depth => do
    let node ← t.read node_id
    match node.first_child with
    | some first_child => Except.ok (some (NodeEdgeWithDepth.Start first_child (depth + 1)))
    | none => Except.ok (some (NodeEdgeWithDepth.End node_id depth))
  | NodeEdgeWithDepth.End node_id depth =>
    if node_id = root then Except.ok none
    else do
      let node ← t.read node_id
      match node.next_sibling with
      | some next_sibling => Except.ok (some (NodeEdgeWithDepth.Start next_sibling depth))
      | none =>
        match node.parent with
        | some p =>
          if depth = 0 then Except.error "attempt to subtract with overflow"
          else Except.ok (some (NodeEdgeWithDepth.End p (depth - 1)))
        | none => Except.ok none

/-- Driving TraverseWithDepthIter to exhaustion from a given state. -/
def traverse_with_depth_run (t : VecTree V) (root : Ix) :
    Nat → Option NodeEdgeWithDepth → Except String (List NodeEdgeWithDepth)
  | _, none => Except.ok []
  | 0, some _ => Except.error "fuel exhausted"
  | fuel+1, some e => do
    let nxt ← traverse_with_depth_step t root e
    let rest ← traverse_with_depth_run t root fuel nxt
    Except.ok (e :: rest)

/-- src: VecTree::traverse_with_depth, run to exhaustion (initial state
Start(node_id, 0)). -/
def traverse_with_depth (t : VecTree V) (i : Ix) (fuel : Nat) :
    Except String (List NodeEdgeWithDepth) :=
  traverse_with_depth_run t i fuel (some (NodeEdgeWithDepth.Start i 0))

/-- src: DescendantsWithDepthIter::next looped to exhaustion: surfaces exactly
the Start edges, paired with their depth. -/
def descendants_with_depth (t : VecTree V) (i : Ix) (fuel : Nat) :
    Except String (List (Ix × Nat)) := do
  let edges ← t.traverse_with_depth i fuel
  Except.ok (edges.filterMap (fun e =>
    match e with
    | NodeEdgeWithDepth.Start n d => some (n, d)
    | NodeEdgeWithDepth.End _ _ => none))

/-- The walk of ChildrenIter from a given link, run to exhaustion: follows
next_sibling links, failing abruptly on a stale handle. -/
def children_from (t : VecTree V) : Nat → Option Ix → Except String (List Ix)
  | _, none => Except.ok []
  | 0, some _ => Except.error "fuel exhausted"
  | fuel+1, some c =>
    match t.nodes.get c with
    | none => Except.error "called Option::unwrap() on a None value"
    | some node => do
      let rest ← children_from t fuel node.next_sibling
      Except.ok (c :: rest)

/-- src: VecTree::children (which indexes self.nodes[node_id] infallibly)
composed with iterating ChildrenIter to exhaustion. -/
def children (t : VecTree V) (i : Ix) (fuel : Nat) : Except String (List Ix) := do
  let node ← t.read i
  children_from t fuel node.first_child

/-- Removing a list of collected descendants from the arena (the result of
each arena removal is discarded by the source loop). -/
def remove_all (t : VecTree V) (l : List Ix) : VecTree V :=
  l.foldl
    (fun tt id =>
      match tt.nodes.remove id with
      | some (_, a) => { tt with nodes := a }
      | none => tt)
    t

/-- src: VecTree::remove. Returns nothing for a stale handle; otherwise
collects the strict descendants first, removes the node, re-links its former
neighbors, removes the collected descendants, and clears the root handle when
the removed node was the root. Fueled through the descendants enumeration. -/
def remove (t : VecTree V) (node_id : Ix) (fuel : Nat) :
    Except (String × VecTree V) (Option V × VecTree V) :=
  if t.contains node_id = false then Except.ok (none, t)
  else do
    let ds ← match t.descendants node_id fuel with
      | Except.error msg => Except.error (msg, t)
      | Except.ok l => Except.ok l
    let rest_descendants := ds.drop 1
    match t.nodes.remove node_id with
    | none => Except.error ("called Option::unwrap() on a None value", t)
    | some (node, arena1) =>
      let t1 : VecTree V := { t with nodes := arena1 }
      let t2 ← (match node.previous_sibling with
        | some prev =>
          match node.next_sibling with
          | some next =>
            (match t1.nodes.get2 prev next with
            | Except.error msg => Except.error (msg, t1)
            | Except.ok (some pn, some nn) =>
              let a2 := (t1.nodes.put prev { pn with next_sibling := some next }).put next { nn with previous_sibling := some prev }
              Except.ok { t1 with nodes := a2 }
            | Except.ok _ => Except.error ("called Option::unwrap() on a None value", t1))
          | none =>
            match node.parent with
            | some par => do
              let ta ← t1.write prev (fun n => { n with next_sibling := none })
              ta.write par (fun n => { n with last_child := some prev })
            | none => Except.ok t1
        | none =>
          match node.next_sibling with
          | some next => do
            let ta ← t1.write next (fun n => { n with previous_sibling := none })
            match node.parent with
            | some par => ta.write par (fun n => { n with first_child := some next })
            | none => Except.ok ta
          | none =>
            match node.parent with
            | some par => t1.write par (fun n => { n with first_child := none, last_child := none })
            | none => Except.ok t1)
      let t3 := remove_all t2 rest_descendants
      let t4 := if t3.root_index = some node_id then { t3 with root_index := none } else t3
      Except.ok (some node.data, t4)

/-- src: VecTree::try_insert_root: fails abruptly when a root already exists,
otherwise creates a parentless node and records it as root. -/
def try_insert_root (t : VecTree V) (data : V) :
    Except (String × VecTree V) (Sum Ix V × VecTree V) :=
  if t.root_index.isSome then Except.error ("A root node already exists", t)
  else
    match t.try_create_node data with
    | Sum.inl (node_id, t1) =>
      Except.ok (Sum.inl node_id, { t1 with root_index := some node_id })
    | Sum.inr v => Except.ok (Sum.inr v, t)

/-- src: VecTree::insert_root: fails abruptly when a root already exists. -/
def insert_root (t : VecTree V) (data : V) :
    Except (String × VecTree V) (Ix × VecTree V) :=
  if t.root_index.isSome then Except.error ("A root node already exists", t)
  else
    match t.create_node data with
    | Except.error msg => Except.error (msg, t)
    | Except.ok (node_id, t1) =>
      Except.ok (node_id, { t1 with root_index := some node_id })

end VecTree

/-! Spec-side rose trees used to describe a well-formed reachable subtree and
its pre-order depth-first enumeration. -/

mutual
/-- A spec-side tree carrying the arena handle and payload of every node. -/
inductive HTree (V : Type) where
  | node (ix : Ix) (data : V) (children : HForest V)
/-- A spec-side sibling forest. -/
inductive HForest (V : Type) where
  | nil
  | cons (hd : HTree V) (tl : HForest V)
end

mutual
/-- Number of nodes of a spec-side tree. -/
def HTree.size {V : Type} : HTree V → Nat
  | HTree.node _ _ cs => 1 + HForest.size cs
/-- Number of nodes of a spec-side forest. -/
def HForest.size {V : Type} : HForest V → Nat
  | HForest.nil => 0
  | HForest.cons hd tl => HTree.size hd + HForest.size tl
end

mutual
/-- The depth-annotated edge sequence of the start/end-edge traversal of a
tree whose root sits at the given depth. -/
def HTree.edges {V : Type} : HTree V → Nat → List NodeEdgeWithDepth
  | HTree.node i _ cs, d =>
    NodeEdgeWithDepth.Start i d :: (HForest.edges cs (d+1) ++ [NodeEdgeWithDepth.End i d])
/-- The depth-annotated edge sequence of a forest whose members sit at the
given depth. -/
def HForest.edges {V : Type} : HForest V → Nat → List NodeEdgeWithDepth
  | HForest.nil, _ => []
  | HForest.cons hd tl, d => HTree.edges hd d ++ HForest.edges tl d
end

mutual
/-- The plain edge sequence (no depths) of the start/end-edge traversal. -/
def HTree.plain_edges {V : Type} : HTree V → List NodeEdge
  | HTree.node i _ cs => NodeEdge.Start i :: (HForest.plain_edges cs ++ [NodeEdge.End i])
/-- The plain edge sequence of a forest. -/
def HForest.plain_edges {V : Type} : HForest V → List NodeEdge
  | HForest.nil => []
  | HForest.cons hd tl => HTree.plain_edges hd ++ HForest.plain_edges tl
end

mutual
/-- Pre-order enumeration of handles with their depths, the root sitting at
the given depth. -/
def HTree.preorder {V : Type} : HTree V → Nat → List (Ix × Nat)
  | HTree.node i _ cs, d => (i, d) :: HForest.preorder cs (d+1)
/-- Pre-order enumeration of a forest at the given depth. -/
def HForest.preorder {V : Type} : HForest V → Nat → List (Ix × Nat)
  | HForest.nil, _ => []
  | HForest.cons hd tl, d => HTree.preorder hd d ++ HForest.preorder tl d
end

mutual
/-- All handles of a spec-side tree. -/
def HTree.handles {V : Type} : HTree V → List Ix
  | HTree.node i _ cs => i :: HForest.handles cs
/-- All handles of a spec-side forest. -/
def HForest.handles {V : Type} : HForest V → List Ix
  | HForest.nil => []
  | HForest.cons hd tl => HTree.handles hd ++ HForest.handles tl
end

/-- The sibling forest hanging from a chain of next_sibling links: cur is the
link to the first sibling, p the parent every sibling points back to, and the
spec-side forest records the handle, payload and child forest of each node as
they are stored in the arena. -/
inductive RepF {V : Type} (t : VecTree V) : Ix → Option Ix → HForest V → Prop where
  | nil : ∀ p, RepF t p none HForest.nil
  | cons : ∀ (p c : Ix) (node : Node V) (cs tl : HForest V),
      t.nodes.get c = some node →
      node.parent = some p →
      RepF t c node.first_child cs →
      RepF t p node.next_sibling tl →
      RepF t p (some c) (HForest.cons (HTree.node c node.data cs) tl)

/-- Iterated parent lookup: the k-th ancestor of a node, when the parent
chain is that long. Distance from a node to the traversal root is the number
of parent hops reaching it. -/
def parent_iter {V : Type} (t : VecTree V) : Nat → Ix → Option Ix
  | 0, i => some i
  | k+1, i =>
    match t.parent i with
    | some p => parent_iter t k p
    | none => none

/-- The iterator state on entry of a sibling forest: at the first sibling
(one level deeper) when the chain is nonempty, otherwise the End edge of the
parent. This is exactly what the Start step of the parent computes. -/
def forest_state (cur : Option Ix) (p : Ix) (d : Nat) : Option NodeEdgeWithDepth :=
  match cur with
  | some c => some (NodeEdgeWithDepth.Start c (d+1))
  | none => some (NodeEdgeWithDepth.End p d)

/-- Plain-edge variant of forest_state. -/
def forest_state_plain (cur : Option Ix) (p : Ix) : Option NodeEdge :=
  match cur with
  | some c => some (NodeEdge.Start c)
  | none => some (NodeEdge.End p)

/-! Helper lemmas. -/

theorem except_bind_pure_comp {E A B : Type} (x : Except E A) (f : A → B) :
    x.bind (fun a => Except.ok (f a)) = x.map f := by
  cases x <;> rfl

theorem except_ok_bind {E A B : Type} (a : A) (f : A → Except E B) :
    (Except.ok a : Except E A) >>= f = f a := rfl

theorem except_error_bind {E A B : Type} (e : E) (f : A → Except E B) :
    (Except.error e : Except E A) >>= f = Except.error e := rfl

theorem except_map_map {E A B C : Type} (x : Except E A) (f : A → B) (g : B → C) :
    (x.map f).map g = x.map (fun a => g (f a)) := by
  cases x <;> rfl

theorem list_set_of_getElem {α : Type} :
    ∀ (l : List α) (n : Nat) (a : α), l[n]? = some a → l.set n a = l
  | [], n, a, h => by simp at h
  | x :: xs, 0, a, h => by simp_all
  | x :: xs, n+1, a, h => by
    simp only [List.getElem?_cons_succ] at h
    simp [List.set, list_set_of_getElem xs n a h]

namespace Arena

variable {V : Type}

theorem get_eq_some {a : Arena V} {i : Ix} {v : V} (h : a.get i = some v) :
    a.items[i.index]? = some (Entry.occupied i.generation v) := by
  unfold Arena.get at h
  split at h
  · rename_i g w heq
    split at h
    · rename_i hgen
      injection h with h2
      rw [heq, hgen, h2]
    · exact absurd h (by simp)
  · exact absurd h (by simp)

theorem put_items {a : Arena V} {i : Ix} {w : V} (hi : a.get i = some w) (v : V) :
    a.put i v = { a with items := a.items.set i.index (Entry.occupied i.generation v) } := by
  have hitems := get_eq_some hi
  unfold Arena.put
  split
  · rename_i g w2 heq
    rw [hitems] at heq
    injection heq with heq2
    injection heq2 with hg hw
    subst hg
    subst hw
    rw [if_pos rfl]
  · rename_i hno
    exact absurd hitems (hno _ _)

theorem get_put {a : Arena V} {i : Ix} {w : V} (hi : a.get i = some w) (v : V) (j : Ix) :
    (a.put i v).get j = if j = i then some v else a.get j := by
  have hitems := get_eq_some hi
  have hlen : i.index < a.items.length := by
    by_contra hlt
    rw [List.getElem?_eq_none (Nat.le_of_not_lt hlt)] at hitems
    simp at hitems
  rw [put_items hi]
  by_cases hj : j = i
  · subst hj
    rw [if_pos rfl]
    unfold Arena.get
    simp [List.getElem?_set, hlen]
  · rw [if_neg hj]
    unfold Arena.get
    by_cases hidx : i.index = j.index
    · have hgen : ¬ i.generation = j.generation := by
        intro hg
        apply hj
        cases i
        cases j
        simp_all
      have hjit : a.items[j.index]? = some (Entry.occupied i.generation w) := by
        rw [← hidx]
        exact hitems
      have hlenj : j.index < a.items.length := hidx ▸ hlen
      simp [List.getElem?_set, hidx, hlen, hlenj, hjit, hgen]
    · simp [List.getElem?_set, hidx]

theorem put_self {a : Arena V} {i : Ix} {w : V} (hi : a.get i = some w) :
    a.put i w = a := by
  have hitems := get_eq_some hi
  have hset := list_set_of_getElem _ _ _ hitems
  rw [put_items hi, hset]

end Arena

namespace VecTree

variable {V : Type}

theorem twd_run_succ (t : VecTree V) (root : Ix) (n : Nat) (e : NodeEdgeWithDepth) :
    t.traverse_with_depth_run root (n+1) (some e) =
      (t.traverse_with_depth_step root e).bind
        (fun nxt => (t.traverse_with_depth_run root n nxt).bind
          (fun rest => Except.ok (e :: rest))) := rfl

theorem twd_run_none (t : VecTree V) (root : Ix) (n : Nat) :
    t.traverse_with_depth_run root n none = Except.ok [] := by
  cases n <;> rfl

theorem tr_run_succ (t : VecTree V) (root : Ix) (n : Nat) (e : NodeEdge) :
    t.traverse_run root (n+1) (some e) =
      (t.traverse_step root e).bind
        (fun nxt => (t.traverse_run root n nxt).bind
          (fun rest => Except.ok (e :: rest))) := rfl

theorem tr_run_none (t : VecTree V) (root : Ix) (n : Nat) :
    t.traverse_run root n none = Except.ok [] := by
  cases n <;> rfl

theorem twd_step_start {t : VecTree V} {root node_id : Ix} {node : Node V} (depth : Nat)
    (hget : t.nodes.get node_id = some node) :
    t.traverse_with_depth_step root (NodeEdgeWithDepth.Start node_id depth) =
      Except.ok (forest_state node.first_child node_id depth) := by
  cases hfc : node.first_child <;>
    simp [traverse_with_depth_step, read, hget, hfc, forest_state, except_ok_bind]

theorem twd_step_end_chain {t : VecTree V} {root c p : Ix} {node : Node V} (d : Nat)
    (hget : t.nodes.get c = some node) (hne : c ≠ root) (hpar : node.parent = some p) :
    t.traverse_with_depth_step root (NodeEdgeWithDepth.End c (d+1)) =
      Except.ok (forest_state node.next_sibling p d) := by
  cases hns : node.next_sibling <;>
    simp [traverse_with_depth_step, read, hget, hne, hpar, hns, forest_state, except_ok_bind]

theorem twd_step_end_root {t : VecTree V} {root : Ix} (d : Nat) :
    t.traverse_with_depth_step root (NodeEdgeWithDepth.End root d) = Except.ok none := by
  simp [traverse_with_depth_step]

theorem tr_step_start {t : VecTree V} {root node_id : Ix} {node : Node V}
    (hget : t.nodes.get node_id = some node) :
    t.traverse_step root (NodeEdge.Start node_id) =
      Except.ok (forest_state_plain node.first_child node_id) := by
  cases hfc : node.first_child <;>
    simp [traverse_step, read, hget, hfc, forest_state_plain, except_ok_bind]

theorem tr_step_end_chain {t : VecTree V} {root c p : Ix} {node : Node V}
    (hget : t.nodes.get c = some node) (hne : c ≠ root) (hpar : node.parent = some p) :
    t.traverse_step root (NodeEdge.End c) =
      Except.ok (forest_state_plain node.next_sibling p) := by
  cases hns : node.next_sibling <;>
    simp [traverse_step, read, hget, hne, hpar, hns, forest_state_plain, except_ok_bind]

theorem tr_step_end_root {t : VecTree V} {root : Ix} :
    t.traverse_step root (NodeEdge.End root) = Except.ok none := by
  simp [traverse_step]

end VecTree

theorem except_bind_ok {E A B : Type} (a : A) (f : A → Except E B) :
    (Except.ok a : Except E A).bind f = f a := rfl

theorem except_bind_error {E A B : Type} (e : E) (f : A → Except E B) :
    (Except.error e : Except E A).bind f = Except.error e := rfl

/-- Driving the depth-annotated traversal through a represented sibling forest
consumes two fuel units per node, emits exactly the edge sequence of the
forest, and leaves the iterator at the End edge of the parent. -/
theorem repf_run {V : Type} {t : VecTree V} {root : Ix} {p : Ix} {cur : Option Ix}
    {F : HForest V} (hrep : RepF t p cur F) :
    (∀ m, m ∈ F.handles → m ≠ root) → ∀ (d fuel : Nat),
    t.traverse_with_depth_run root (2 * F.size + fuel) (forest_state cur p d) =
      (t.traverse_with_depth_run root fuel (some (NodeEdgeWithDepth.End p d))).map
        (fun rest => F.edges (d+1) ++ rest) := by
  induction hrep with
  | nil q =>
    intro _ d fuel
    simp only [HForest.size, Nat.mul_zero, Nat.zero_add, forest_state, HForest.edges]
    cases t.traverse_with_depth_run root fuel (some (NodeEdgeWithDepth.End q d)) <;>
      simp [Except.map]
  | cons q c node cs tl hget hpar hcs htl ihcs ihtl =>
    intro hh d fuel
    have hcne : c ≠ root := hh c (by simp [HForest.handles, HTree.handles])
    have hhcs : ∀ m, m ∈ cs.handles → m ≠ root := by
      intro m hm
      exact hh m (by simp [HForest.handles, HTree.handles, hm])
    have hhtl : ∀ m, m ∈ tl.handles → m ≠ root := by
      intro m hm
      exact hh m (by simp [HForest.handles, HTree.handles, hm])
    have hfuel : 2 * (HForest.cons (HTree.node c node.data cs) tl).size + fuel
        = (2 * cs.size + ((2 * tl.size + fuel) + 1)) + 1 := by
      simp [HForest.size, HTree.size]
      ring
    rw [hfuel]
    simp only [forest_state]
    rw [VecTree.twd_run_succ, VecTree.twd_step_start (d+1) hget, except_bind_ok]
    rw [ihcs hhcs (d+1) ((2 * tl.size + fuel) + 1)]
    rw [VecTree.twd_run_succ, VecTree.twd_step_end_chain d hget hcne hpar, except_bind_ok]
    rw [ihtl hhtl d fuel]
    cases t.traverse_with_depth_run root fuel (some (NodeEdgeWithDepth.End q d)) <;>
      simp [Except.map, Except.bind, HForest.edges, HTree.edges]

/-- Plain-edge analogue of repf_run for TraverseIter. -/
theorem repf_run_plain {V : Type} {t : VecTree V} {root : Ix} {p : Ix} {cur : Option Ix}
    {F : HForest V} (hrep : RepF t p cur F) :
    (∀ m, m ∈ F.handles → m ≠ root) → ∀ (fuel : Nat),
    t.traverse_run root (2 * F.size + fuel) (forest_state_plain cur p) =
      (t.traverse_run root fuel (some (NodeEdge.End p))).map
        (fun rest => F.plain_edges ++ rest) := by
  induction hrep with
  | nil q =>
    intro _ fuel
    simp only [HForest.size, Nat.mul_zero, Nat.zero_add, forest_state_plain, HForest.plain_edges]
    cases t.traverse_run root fuel (some (NodeEdge.End q)) <;> simp [Except.map]
  | cons q c node cs tl hget hpar hcs htl ihcs ihtl =>
    intro hh fuel
    have hcne : c ≠ root := hh c (by simp [HForest.handles, HTree.handles])
    have hhcs : ∀ m, m ∈ cs.handles → m ≠ root := by
      intro m hm
      exact hh m (by simp [HForest.handles, HTree.handles, hm])
    have hhtl : ∀ m, m ∈ tl.handles → m ≠ root := by
      intro m hm
      exact hh m (by simp [HForest.handles, HTree.handles, hm])
    have hfuel : 2 * (HForest.cons (HTree.node c node.data cs) tl).size + fuel
        = (2 * cs.size + ((2 * tl.size + fuel) + 1)) + 1 := by
      simp [HForest.size, HTree.size]
      ring
    rw [hfuel]
    simp only [forest_state_plain]
    rw [VecTree.tr_run_succ, VecTree.tr_step_start hget, except_bind_ok]
    rw [ihcs hhcs ((2 * tl.size + fuel) + 1)]
    rw [VecTree.tr_run_succ, VecTree.tr_step_end_chain hget hcne hpar, except_bind_ok]
    rw [ihtl hhtl fuel]
    cases t.traverse_run root fuel (some (NodeEdge.End q)) <;>
      simp [Except.map, Except.bind, HForest.plain_edges, HTree.plain_edges]

/-- Full depth-annotated traversal of a represented subtree yields exactly its
edge sequence (in particular it terminates without any abrupt failure). -/
theorem traverse_with_depth_refines {V : Type} {t : VecTree V} {root : Ix} {node : Node V}
    {cs : HForest V} (hget : t.nodes.get root = some node)
    (hrep : RepF t root node.first_child cs)
    (hh : ∀ m, m ∈ cs.handles → m ≠ root) (fuel : Nat) :
    t.traverse_with_depth root (2 * (HTree.node root node.data cs).size + fuel) =
      Except.ok ((HTree.node root node.data cs).edges 0) := by
  unfold VecTree.traverse_with_depth
  have hsz : 2 * (HTree.node root node.data cs).size + fuel = (2 * cs.size + (fuel + 1)) + 1 := by
    simp [HTree.size]
    ring
  rw [hsz, VecTree.twd_run_succ, VecTree.twd_step_start 0 hget, except_bind_ok]
  rw [repf_run hrep hh 0 (fuel + 1)]
  rw [VecTree.twd_run_succ, VecTree.twd_step_end_root 0, except_bind_ok, VecTree.twd_run_none]
  simp [Except.map, Except.bind, HTree.edges]

/-- Full plain traversal of a represented subtree yields exactly its plain
edge sequence. -/
theorem traverse_refines {V : Type} {t : VecTree V} {root : Ix} {node : Node V}
    {cs : HForest V} (hget : t.nodes.get root = some node)
    (hrep : RepF t root node.first_child cs)
    (hh : ∀ m, m ∈ cs.handles → m ≠ root) (fuel : Nat) :
    t.traverse root (2 * (HTree.node root node.data cs).size + fuel) =
      Except.ok ((HTree.node root node.data cs).plain_edges) := by
  unfold VecTree.traverse
  have hsz : 2 * (HTree.node root node.data cs).size + fuel = (2 * cs.size + (fuel + 1)) + 1 := by
    simp [HTree.size]
    ring
  rw [hsz, VecTree.tr_run_succ, VecTree.tr_step_start hget, except_bind_ok]
  rw [repf_run_plain hrep hh (fuel + 1)]
  rw [VecTree.tr_run_succ, VecTree.tr_step_end_root, except_bind_ok, VecTree.tr_run_none]
  simp [Except.map, Except.bind, HTree.plain_edges]

/-- Keeping only the Start edges of the edge sequence of a represented forest
gives its pre-order enumeration. -/
theorem repf_filterMap_start {V : Type} {t : VecTree V} {p : Ix} {cur : Option Ix}
    {F : HForest V} (hrep : RepF t p cur F) :
    ∀ δ : Nat,
      (F.edges δ).filterMap (fun e =>
        match e with
        | NodeEdgeWithDepth.Start n d => some (n, d)
        | NodeEdgeWithDepth.End _ _ => none) = F.preorder δ := by
  induction hrep with
  | nil q =>
    intro δ
    simp [HForest.edges, HForest.preorder]
  | cons q c node cs tl _ _ _ _ ihcs ihtl =>
    intro δ
    simp [HForest.edges, HTree.edges, HForest.preorder, HTree.preorder,
      List.filterMap_append, ihcs, ihtl]

/-- Plain variant: the Start edges of a represented forest in order are the
handles of its pre-order enumeration. -/
theorem repf_filterMap_start_plain {V : Type} {t : VecTree V} {p : Ix} {cur : Option Ix}
    {F : HForest V} (hrep : RepF t p cur F) :
    ∀ δ : Nat,
      F.plain_edges.filterMap (fun e =>
        match e with
        | NodeEdge.Start n => some n
        | NodeEdge.End _ => none) = (F.preorder δ).map Prod.fst := by
  induction hrep with
  | nil q =>
    intro δ
    simp [HForest.plain_edges, HForest.preorder]
  | cons q c node cs tl _ _ _ _ ihcs ihtl =>
    intro δ
    simp [HForest.plain_edges, HTree.plain_edges, HForest.preorder, HTree.preorder,
      List.filterMap_append, ihcs (δ+1), ihtl δ]

/-- descendants_with_depth on a represented subtree enumerates exactly the
pre-order of the subtree with depths counted from the traversal root. -/
theorem descendants_with_depth_refines {V : Type} {t : VecTree V} {root : Ix} {node : Node V}
    {cs : HForest V} (hget : t.nodes.get root = some node)
    (hrep : RepF t root node.first_child cs)
    (hh : ∀ m, m ∈ cs.handles → m ≠ root) (fuel : Nat) :
    t.descendants_with_depth root (2 * (HTree.node root node.data cs).size + fuel) =
      Except.ok ((HTree.node root node.data cs).preorder 0) := by
  unfold VecTree.descendants_with_depth
  rw [traverse_with_depth_refines hget hrep hh fuel, except_ok_bind]
  simp [HTree.edges, HTree.preorder, List.filterMap_append, repf_filterMap_start hrep 1]

/-- descendants on a represented subtree enumerates exactly the handles of the
pre-order of the subtree. -/
theorem descendants_refines {V : Type} {t : VecTree V} {root : Ix} {node : Node V}
    {cs : HForest V} (hget : t.nodes.get root = some node)
    (hrep : RepF t root node.first_child cs)
    (hh : ∀ m, m ∈ cs.handles → m ≠ root) (fuel : Nat) :
    t.descendants root (2 * (HTree.node root node.data cs).size + fuel) =
      Except.ok (((HTree.node root node.data cs).preorder 0).map Prod.fst) := by
  unfold VecTree.descendants
  rw [traverse_refines hget hrep hh fuel, except_ok_bind]
  simp [HTree.plain_edges, HTree.preorder, List.filterMap_append,
    repf_filterMap_start_plain hrep 1]

theorem parent_iter_add {V : Type} (t : VecTree V) (a b : Nat) (i : Ix) :
    parent_iter t (a + b) i = (parent_iter t a i).bind (fun j => parent_iter t b j) := by
  induction a generalizing i with
  | zero => simp [parent_iter]
  | succ n ih =>
    rw [Nat.succ_add]
    simp only [parent_iter]
    cases t.parent i <;> simp [ih]

/-- Every entry of the pre-order of a represented forest sits at depth at
least that of the forest, and its parent chain reaches the forest parent in
depth-minus-base-plus-one hops. -/
theorem repf_preorder_dist {V : Type} {t : VecTree V} {p : Ix} {cur : Option Ix}
    {F : HForest V} (hrep : RepF t p cur F) :
    ∀ (δ : Nat) (m : Ix) (k : Nat), (m, k) ∈ F.preorder δ →
      δ ≤ k ∧ parent_iter t (k - δ + 1) m = some p := by
  induction hrep with
  | nil q =>
    intro δ m k hm
    simp [HForest.preorder] at hm
  | cons q c node cs tl hget hpar _ _ ihcs ihtl =>
    intro δ m k hm
    have hpc : t.parent c = some q := by
      simp [VecTree.parent, hget, hpar]
    simp only [HForest.preorder, HTree.preorder, List.mem_cons, List.mem_append,
      Prod.mk.injEq] at hm
    rcases hm with (⟨hm1, hm2⟩ | hm) | hm
    · subst hm1
      subst hm2
      refine ⟨Nat.le_refl _, ?_⟩
      simp [parent_iter, hpc]
    · obtain ⟨hle, hpi⟩ := ihcs (δ+1) m k hm
      constructor
      · omega
      · have harith : k - δ + 1 = (k - (δ+1) + 1) + 1 := by omega
        rw [harith, parent_iter_add, hpi]
        simp [parent_iter, hpc]
    · obtain ⟨hle, hpi⟩ := ihtl δ m k hm
      exact ⟨hle, hpi⟩

/-- Every End edge of the edge sequence of a represented forest corresponds to
a pre-order entry at the same depth. -/
theorem repf_end_edges {V : Type} {t : VecTree V} {p : Ix} {cur : Option Ix}
    {F : HForest V} (hrep : RepF t p cur F) :
    ∀ (δ : Nat) (m : Ix) (k : Nat),
      NodeEdgeWithDepth.End m k ∈ F.edges δ → (m, k) ∈ F.preorder δ := by
  induction hrep with
  | nil q =>
    intro δ m k hm
    simp [HForest.edges] at hm
  | cons q c node cs tl _ _ _ _ ihcs ihtl =>
    intro δ m k hm
    simp only [HForest.edges, HTree.edges, List.mem_cons, List.mem_append,
      List.mem_singleton] at hm
    simp only [HForest.preorder, HTree.preorder, List.mem_cons, List.mem_append,
      Prod.mk.injEq]
    rcases hm with (hm | hm | hm | hm) | hm
    · exact absurd hm (by simp)
    · exact Or.inl (Or.inr (ihcs (δ+1) m k hm))
    · injection hm with hm1 hm2
      subst hm1
      subst hm2
      exact Or.inl (Or.inl ⟨rfl, rfl⟩)
    · exact absurd hm (by simp)
    · exact Or.inr (ihtl δ m k hm)

/-- A successful run that started from a pending edge yields that edge first. -/
theorem twd_run_ok_head {V : Type} {t : VecTree V} {root : Ix} {fuel : Nat}
    {e : NodeEdgeWithDepth} {l : List NodeEdgeWithDepth}
    (h : t.traverse_with_depth_run root fuel (some e) = Except.ok l) :
    ∃ l2, l = e :: l2 := by
  cases fuel with
  | zero => exact absurd h (by simp [VecTree.traverse_with_depth_run])
  | succ n =>
    rw [VecTree.twd_run_succ] at h
    cases hs : t.traverse_with_depth_step root e with
    | error msg => rw [hs] at h; exact absurd h (by simp [Except.bind])
    | ok nxt =>
      rw [hs, except_bind_ok] at h
      cases hr : t.traverse_with_depth_run root n nxt with
      | error msg => rw [hr] at h; exact absurd h (by simp [Except.bind])
      | ok rest =>
        rw [hr] at h
        simp only [except_bind_ok, Except.ok.injEq] at h
        exact ⟨rest, h.symm⟩

/-- Whenever descendants_with_depth succeeds, its first result is the
traversal root at depth 0. -/
theorem descendants_with_depth_head {V : Type} {t : VecTree V} {i : Ix} {fuel : Nat}
    {l : List (Ix × Nat)} (h : t.descendants_with_depth i fuel = Except.ok l) :
    l.head? = some (i, 0) := by
  unfold VecTree.descendants_with_depth VecTree.traverse_with_depth at h
  cases htr : t.traverse_with_depth_run i fuel (some (NodeEdgeWithDepth.Start i 0)) with
  | error msg =>
    rw [htr] at h
    exact absurd h (by simp [except_error_bind])
  | ok es =>
    rw [htr, except_ok_bind] at h
    obtain ⟨l2, rfl⟩ := twd_run_ok_head htr
    simp only [List.filterMap_cons, Except.ok.injEq] at h
    rw [← h]
    rfl

/-- Every result surfaced by descendants_with_depth is a Start edge of the
underlying edge traversal. -/
theorem descendants_with_depth_only_starts {V : Type} {t : VecTree V} {i : Ix} {fuel : Nat}
    {es : List NodeEdgeWithDepth} {l : List (Ix × Nat)}
    (ht : t.traverse_with_depth i fuel = Except.ok es)
    (hd : t.descendants_with_depth i fuel = Except.ok l) :
    ∀ q, q ∈ l → NodeEdgeWithDepth.Start q.1 q.2 ∈ es := by
  unfold VecTree.descendants_with_depth at hd
  rw [ht, except_ok_bind] at hd
  injection hd with hd
  intro q hq
  rw [← hd] at hq
  obtain ⟨e, he, hpe⟩ := List.mem_filterMap.mp hq
  cases e with
  | Start n d =>
    simp only [Option.some.injEq] at hpe
    rw [← hpe]
    exact he
  | End n d => exact absurd hpe (by simp)

/-- src behavior: remove on a stale or absent handle returns nothing and
leaves the tree untouched. -/
theorem remove_not_contains {V : Type} {t : VecTree V} {h : Ix} (fuel : Nat)
    (hc : t.contains h = false) :
    t.remove h fuel = Except.ok (none, t) := by
  unfold VecTree.remove
  rw [if_pos hc]

/-- src behavior: detach fails abruptly, before any mutation, on a stale
handle. -/
theorem detach_stale {V : Type} {t : VecTree V} {h : Ix}
    (hc : t.nodes.get h = none) :
    t.detach h = Except.error ("called Option::unwrap() on a None value", t) := by
  unfold VecTree.detach
  rw [hc]

/-- src behavior: append_child with a stale child handle fails abruptly inside
detach, before any mutation. -/
theorem append_child_stale_child {V : Type} {t : VecTree V} {p c : Ix}
    (hc : t.nodes.get c = none) :
    t.append_child p c = Except.error ("called Option::unwrap() on a None value", t) := by
  unfold VecTree.append_child
  rw [detach_stale hc]
  rfl

/-- src behavior: append_child whose detach phase succeeded but whose target
handle is then found stale fails abruptly with the already-detached state. -/
theorem append_child_stale_parent {V : Type} {t t1 : VecTree V} {p c : Ix}
    (hdet : t.detach c = Except.ok t1) (hpc : p.index ≠ c.index)
    (hp : t1.nodes.get p = none) :
    t.append_child p c = Except.error ("The node you are trying to append to is invalid", t1) := by
  unfold VecTree.append_child
  rw [hdet, except_ok_bind]
  simp [Arena.get2, hpc, hp, except_ok_bind]

/-- src behavior: detach of a live node with no parent and no siblings is a
no-op: the tree is returned unchanged. -/
theorem detach_unattached {V : Type} {t : VecTree V} {i : Ix} {node : Node V}
    (hget : t.nodes.get i = some node) (hp : node.parent = none)
    (hprev : node.previous_sibling = none) (hnext : node.next_sibling = none) :
    t.detach i = Except.ok t := by
  have hcl : ({ node with parent := none, previous_sibling := none, next_sibling := none } :
      Node V) = node := by
    cases node
    simp_all
  unfold VecTree.detach
  rw [hget]
  simp [hp, hprev, hnext, hcl, Arena.put_self hget, except_ok_bind]

theorem write_eq_ok {V : Type} {t : VecTree V} {x : Ix} {f : Node V → Node V} {t2 : VecTree V}
    (hw : t.write x f = Except.ok t2) :
    ∃ nd, t.nodes.get x = some nd ∧ t2 = { t with nodes := t.nodes.put x (f nd) } := by
  unfold VecTree.write at hw
  cases hx : t.nodes.get x with
  | none => rw [hx] at hw; exact absurd hw (by simp)
  | some nd =>
    rw [hx] at hw
    injection hw with hw
    exact ⟨nd, rfl, hw.symm⟩

/-- A field update that does not touch the parent link leaves the parent of
every node unchanged. -/
theorem write_parent_map {V : Type} {t : VecTree V} {x : Ix} {f : Node V → Node V}
    {t2 : VecTree V} (hw : t.write x f = Except.ok t2)
    (hf : ∀ nd, (f nd).parent = nd.parent) (j : Ix) :
    (t2.nodes.get j).map Node.parent = (t.nodes.get j).map Node.parent := by
  obtain ⟨nd, hx, rfl⟩ := write_eq_ok hw
  show ((t.nodes.put x (f nd)).get j).map Node.parent = _
  rw [Arena.get_put hx (f nd) j]
  by_cases hj : j = x
  · subst hj
    rw [if_pos rfl, hx]
    simp [hf nd]
  · rw [if_neg hj]

theorem except_bind_eq_ok {E A B : Type} {x : Except E A} {f : A → Except E B} {b : B}
    (h : x >>= f = Except.ok b) : ∃ a, x = Except.ok a ∧ f a = Except.ok b := by
  cases x with
  | ok a => exact ⟨a, rfl, h⟩
  | error e => exact absurd h (by simp [except_error_bind])

/-- src behavior: after a successful detach, the detached node is still live
and its parent link is cleared. -/
theorem detach_ok_parent_none {V : Type} {t t2 : VecTree V} {i : Ix} {node : Node V}
    (hget : t.nodes.get i = some node) (hdet : t.detach i = Except.ok t2) :
    (t2.nodes.get i).map Node.parent = some none := by
  have h1 : ∀ u : VecTree V,
      u.nodes = t.nodes.put i { node with parent := none, previous_sibling := none, next_sibling := none } →
      (u.nodes.get i).map Node.parent = some none := by
    intro u hu
    rw [hu, Arena.get_put hget _ i, if_pos rfl]
    rfl
  unfold VecTree.detach at hdet
  rw [hget] at hdet
  have h2 : ((({ t with nodes := t.nodes.put i { node with parent := none, previous_sibling := none, next_sibling := none } } : VecTree V)).nodes.get i).map Node.parent = some none := h1 _ rfl
  rcases hns : node.next_sibling with _ | ns <;>
    rcases hpo : node.parent with _ | pq <;>
      rcases hpv : node.previous_sibling with _ | ps <;>
        simp only [hns, hpo, hpv, except_ok_bind, except_error_bind] at hdet
  · injection hdet with hdet
    rw [← hdet]
    exact h2
  · rw [write_parent_map hdet (fun nd => rfl) i]
    exact h2
  · obtain ⟨ta, hw1, hk⟩ := except_bind_eq_ok hdet
    rw [write_parent_map hk (fun nd => rfl) i, write_parent_map hw1 (fun nd => rfl) i]
    exact h2
  · obtain ⟨ta, hw1, hk⟩ := except_bind_eq_ok hdet
    rw [write_parent_map hk (fun nd => rfl) i, write_parent_map hw1 (fun nd => rfl) i]
    exact h2
  · obtain ⟨ta, hw1, hk⟩ := except_bind_eq_ok hdet
    injection hk with hk
    rw [← hk, write_parent_map hw1 (fun nd => rfl) i]
    exact h2
  · obtain ⟨ta, hw1, hk⟩ := except_bind_eq_ok hdet
    rw [write_parent_map hk (fun nd => rfl) i, write_parent_map hw1 (fun nd => rfl) i]
    exact h2
  · obtain ⟨ta, hw1, hk⟩ := except_bind_eq_ok hdet
    rw [write_parent_map hk (fun nd => rfl) i, write_parent_map hw1 (fun nd => rfl) i]
    exact h2
  · obtain ⟨ta, hw1, hk⟩ := except_bind_eq_ok hdet
    rw [write_parent_map hk (fun nd => rfl) i, write_parent_map hw1 (fun nd => rfl) i]
    exact h2

/-- src behavior: appending a node as a child of itself passes detach first
and is then rejected by the arena get2_mut generation assertion, with the
already-detached state at the failure. -/
theorem append_child_self {V : Type} {t t1 : VecTree V} {n : Ix}
    (hdet : t.detach n = Except.ok t1) :
    t.append_child n n =
      Except.error ("assertion failed: i1.generation != i2.generation", t1) := by
  unfold VecTree.append_child
  rw [hdet, except_ok_bind]
  simp [Arena.get2, except_error_bind]

/-- src behavior: try_insert_root fails abruptly, before any mutation, when a
root already exists. -/
theorem try_insert_root_second {V : Type} {t : VecTree V} {r : Ix}
    (h : t.root_index = some r) (v : V) :
    t.try_insert_root v = Except.error ("A root node already exists", t) := by
  simp [VecTree.try_insert_root, h]

/-- src behavior: insert_root fails abruptly, before any mutation, when a
root already exists. -/
theorem insert_root_second {V : Type} {t : VecTree V} {r : Ix}
    (h : t.root_index = some r) (v : V) :
    t.insert_root v = Except.error ("A root node already exists", t) := by
  simp [VecTree.insert_root, h]

/-- src behavior: try_insert on a full arena returns the payload and leaves
the tree untouched. -/
theorem try_insert_full {V : Type} {t : VecTree V}
    (h : t.nodes.free_list_head = none) (v : V) (p : Ix) :
    t.try_insert v p = Except.ok (Sum.inr v, t) := by
  simp [VecTree.try_insert, VecTree.try_create_node, Arena.try_insert, h]

/-- src behavior: children on a stale handle fails abruptly at the infallible
arena index lookup. -/
theorem children_stale {V : Type} {t : VecTree V} {i : Ix}
    (h : t.nodes.get i = none) (fuel : Nat) :
    t.children i fuel = Except.error "called Option::unwrap() on a None value" := by
  simp [VecTree.children, VecTree.read, h, except_error_bind]

/-- src behavior: iterating descendants of a stale handle fails abruptly at
the first arena index lookup. -/
theorem descendants_stale {V : Type} {t : VecTree V} {i : Ix}
    (h : t.nodes.get i = none) (fuel : Nat) :
    t.descendants i (fuel+1) = Except.error "called Option::unwrap() on a None value" := by
  unfold VecTree.descendants VecTree.traverse
  rw [VecTree.tr_run_succ]
  simp [VecTree.traverse_step, VecTree.read, h, except_error_bind, except_bind_error]

/-- src behavior: iterating descendants_with_depth of a stale handle fails
abruptly at the first arena index lookup. -/
theorem descendants_with_depth_stale {V : Type} {t : VecTree V} {i : Ix}
    (h : t.nodes.get i = none) (fuel : Nat) :
    t.descendants_with_depth i (fuel+1) =
      Except.error "called Option::unwrap() on a None value" := by
  unfold VecTree.descendants_with_depth VecTree.traverse_with_depth
  rw [VecTree.twd_run_succ]
  simp [VecTree.traverse_with_depth_step, VecTree.read, h, except_error_bind, except_bind_error]

/-- src behavior: backtracking from the End edge of a live non-root node with
no next sibling and no parent ends the depth-annotated iteration cleanly. -/
theorem twd_step_end_orphan {V : Type} {t : VecTree V} {root n : Ix} {node : Node V}
    (d : Nat) (hget : t.nodes.get n = some node) (hne : n ≠ root)
    (hns : node.next_sibling = none) (hpar : node.parent = none) :
    t.traverse_with_depth_step root (NodeEdgeWithDepth.End n d) = Except.ok none := by
  simp [VecTree.traverse_with_depth_step, VecTree.read, hget, hne, hns, hpar, except_ok_bind]

/-- Plain variant of twd_step_end_orphan. -/
theorem tr_step_end_orphan {V : Type} {t : VecTree V} {root n : Ix} {node : Node V}
    (hget : t.nodes.get n = some node) (hne : n ≠ root)
    (hns : node.next_sibling = none) (hpar : node.parent = none) :
    t.traverse_step root (NodeEdge.End n) = Except.ok none := by
  simp [VecTree.traverse_step, VecTree.read, hget, hne, hns, hpar, except_ok_bind]

/-! Claim theorems. -/

/-- C1: remove(A) on a live node A (here a child of the root, with strict
descendants B and C and unrelated siblings s1, s2) returns the payload of A;
afterwards get, get_mut and contains report absence for A, B and C, A no
longer appears in the children sequence of its former parent, and the
unrelated siblings keep their payloads, their mutual sibling linkage, their
parent link and their (empty) subtrees — the sibling adjacent to A now starts
the child list, which is what removal of A forces.  For a stale or absent
handle, remove returns nothing and leaves the tree completely unchanged. -/
theorem claim_c1_remove_deletes_subtree :
    ((do
      let (r, t) ← (VecTree.new Nat).insert_root 100
      let (a, t) ← t.insert 10 r
      let (s1, t) ← t.insert 20 r
      let (s2, t) ← t.insert 30 r
      let (b, t) ← t.insert 11 a
      let (c, t) ← t.insert 12 b
      let (payload, t2) ← t.remove a 20
      Except.ok (r, a, s1, s2, b, c, payload,
        t2.get a, t2.get_mut a, t2.contains a, t2.get b, t2.contains b,
        t2.get c, t2.contains c,
        t2.children r 20, t2.read s1, t2.read s2))
    = Except.ok (⟨0,0⟩, ⟨1,0⟩, ⟨2,0⟩, ⟨3,0⟩, ⟨4,0⟩, ⟨5,0⟩, some 10,
        none, none, false, none, false, none, false,
        Except.ok [⟨2,0⟩, ⟨3,0⟩],
        Except.ok { parent := some ⟨0,0⟩, previous_sibling := none, next_sibling := some ⟨3,0⟩, first_child := none, last_child := none, data := 20 },
        Except.ok { parent := some ⟨0,0⟩, previous_sibling := some ⟨2,0⟩, next_sibling := none, first_child := none, last_child := none, data := 30 }))
    ∧ ∀ (W : Type) (t : VecTree W) (h : Ix) (fuel : Nat),
        t.contains h = false → t.remove h fuel = Except.ok (none, t) := by
  constructor
  · decide
  · intro W t h fuel hc
    exact remove_not_contains fuel hc

/-- Witness for C1: the stale-handle clause applied to a one-node tree and an
absent handle. -/
theorem claim_c1_remove_deletes_subtree_witness :
    ({ nodes := { items := [Entry.occupied 0 { parent := none, previous_sibling := none, next_sibling := none, first_child := none, last_child := none, data := 5 }], generation := 0, free_list_head := none, len := 1 }, root_index := some ⟨0,0⟩ } : VecTree Nat).contains ⟨1,0⟩ = false
    ∧ ({ nodes := { items := [Entry.occupied 0 { parent := none, previous_sibling := none, next_sibling := none, first_child := none, last_child := none, data := 5 }], generation := 0, free_list_head := none, len := 1 }, root_index := some ⟨0,0⟩ } : VecTree Nat).remove ⟨1,0⟩ 5
      = Except.ok (none, { nodes := { items := [Entry.occupied 0 { parent := none, previous_sibling := none, next_sibling := none, first_child := none, last_child := none, data := 5 }], generation := 0, free_list_head := none, len := 1 }, root_index := some ⟨0,0⟩ }) :=
  ⟨by decide, claim_c1_remove_deletes_subtree.2 Nat _ ⟨1,0⟩ 5 (by decide)⟩

/-- C3: append_child(p2, c) where the live node c is a child of p1 (c in the
middle of the sibling list of p1, carrying its own subtree d) removes c from
the child list of p1 (the remaining children x, y keep their relative order
and doubly linked structure), appends c as the last child of p2 (after the
former last child e, whose next_sibling becomes c and which becomes the
previous_sibling of c), and leaves first_child/last_child of c and the entire
subtree of c unchanged; when p2 has no children, c becomes both first_child
and last_child of p2 with no previous sibling. -/
theorem claim_c3_append_child_moves_subtree :
    ((do
      let (r, t) ← (VecTree.new Nat).insert_root 0
      let (p1, t) ← t.insert 1 r
      let (p2, t) ← t.insert 2 r
      let (x, t) ← t.insert 3 p1
      let (c, t) ← t.insert 4 p1
      let (y, t) ← t.insert 5 p1
      let (d, t) ← t.insert 6 c
      let (e, t) ← t.insert 7 p2
      let t2 ← t.append_child p2 c
      Except.ok (r, p1, p2, x, c, y, d, e,
        t2.children p1 20, t2.children p2 20, t2.descendants c 20))
    = Except.ok (⟨0,0⟩, ⟨1,0⟩, ⟨2,0⟩, ⟨3,0⟩, ⟨4,0⟩, ⟨5,0⟩, ⟨6,0⟩, ⟨7,0⟩,
        Except.ok [⟨3,0⟩, ⟨5,0⟩],
        Except.ok [⟨7,0⟩, ⟨4,0⟩],
        Except.ok [⟨4,0⟩, ⟨6,0⟩]))
    ∧ ((do
      let (r, t) ← (VecTree.new Nat).insert_root 0
      let (p1, t) ← t.insert 1 r
      let (p2, t) ← t.insert 2 r
      let (x, t) ← t.insert 3 p1
      let (c, t) ← t.insert 4 p1
      let (y, t) ← t.insert 5 p1
      let (d, t) ← t.insert 6 c
      let (e, t) ← t.insert 7 p2
      let t2 ← t.append_child p2 c
      Except.ok (t2.read p1, t2.read p2, t2.read x, t2.read y, t2.read c, t2.read e, t2.read d))
    = Except.ok (
        Except.ok { parent := some ⟨0,0⟩, previous_sibling := none, next_sibling := some ⟨2,0⟩, first_child := some ⟨3,0⟩, last_child := some ⟨5,0⟩, data := 1 },
        Except.ok { parent := some ⟨0,0⟩, previous_sibling := some ⟨1,0⟩, next_sibling := none, first_child := some ⟨7,0⟩, last_child := some ⟨4,0⟩, data := 2 },
        Except.ok { parent := some ⟨1,0⟩, previous_sibling := none, next_sibling := some ⟨5,0⟩, first_child := none, last_child := none, data := 3 },
        Except.ok { parent := some ⟨1,0⟩, previous_sibling := some ⟨3,0⟩, next_sibling := none, first_child := none, last_child := none, data := 5 },
        Except.ok { parent := some ⟨2,0⟩, previous_sibling := some ⟨7,0⟩, next_sibling := none, first_child := some ⟨6,0⟩, last_child := some ⟨6,0⟩, data := 4 },
        Except.ok { parent := some ⟨2,0⟩, previous_sibling := none, next_sibling := some ⟨4,0⟩, first_child := none, last_child := none, data := 7 },
        Except.ok { parent := some ⟨4,0⟩, previous_sibling := none, next_sibling := none, first_child := none, last_child := none, data := 6 }))
    ∧ ((do
      let (r, t) ← (VecTree.new Nat).insert_root 0
      let (p1, t) ← t.insert 1 r
      let (p2, t) ← t.insert 2 r
      let (c, t) ← t.insert 3 p1
      let t2 ← t.append_child p2 c
      Except.ok (r, p1, p2, c,
        t2.children p1 20, t2.children p2 20, t2.read p2, t2.read c))
    = Except.ok (⟨0,0⟩, ⟨1,0⟩, ⟨2,0⟩, ⟨3,0⟩,
        Except.ok [], Except.ok [⟨3,0⟩],
        Except.ok { parent := some ⟨0,0⟩, previous_sibling := some ⟨1,0⟩, next_sibling := none, first_child := some ⟨3,0⟩, last_child := some ⟨3,0⟩, data := 2 },
        Except.ok { parent := some ⟨2,0⟩, previous_sibling := none, next_sibling := none, first_child := none, last_child := none, data := 3 })) := by
  refine ⟨?_, ?_, ?_⟩
  · decide
  · decide
  · decide

/-- C7: from every iterator state that sits at the End edge of a live
non-root node whose next_sibling link is empty and whose parent link is
absent (the mid-iteration topology-change situation), the traversal — plain
and depth-annotated — yields that pending edge and then terminates cleanly
with end-of-iteration instead of failing abruptly or looping. -/
theorem claim_c7_mid_iteration_clean_stop {V : Type} (t : VecTree V) (root n : Ix)
    (node : Node V) (d fuel : Nat)
    (hget : t.nodes.get n = some node) (hne : n ≠ root)
    (hns : node.next_sibling = none) (hpar : node.parent = none) :
    t.traverse_with_depth_run root (fuel+1) (some (NodeEdgeWithDepth.End n d)) =
      Except.ok [NodeEdgeWithDepth.End n d]
    ∧ t.traverse_run root (fuel+1) (some (NodeEdge.End n)) = Except.ok [NodeEdge.End n] := by
  constructor
  · rw [VecTree.twd_run_succ, twd_step_end_orphan d hget hne hns hpar, except_bind_ok,
      VecTree.twd_run_none]
    rfl
  · rw [VecTree.tr_run_succ, tr_step_end_orphan hget hne hns hpar, except_bind_ok,
      VecTree.tr_run_none]
    rfl

/-- Witness for C7: a live parentless node (a root node) reached as an End
edge of a traversal rooted elsewhere. -/
theorem claim_c7_mid_iteration_clean_stop_witness :
    ({ nodes := { items := [Entry.occupied 0 { parent := none, previous_sibling := none, next_sibling := none, first_child := none, last_child := none, data := 5 }], generation := 0, free_list_head := none, len := 1 }, root_index := some ⟨0,0⟩ } : VecTree Nat).traverse_with_depth_run ⟨1,0⟩ 4 (some (NodeEdgeWithDepth.End ⟨0,0⟩ 2)) = Except.ok [NodeEdgeWithDepth.End ⟨0,0⟩ 2] :=
  (claim_c7_mid_iteration_clean_stop _ ⟨1,0⟩ ⟨0,0⟩
    { parent := none, previous_sibling := none, next_sibling := none, first_child := none, last_child := none, data := 5 }
    2 3 (by decide) (by decide) rfl rfl).1

/-- C8: detach on a live node that has neither parent nor siblings is a
no-op: the entire tree state is unchanged, and so is a second consecutive
detach. -/
theorem claim_c8_detach_noop {V : Type} (t : VecTree V) (i : Ix) (node : Node V)
    (hget : t.nodes.get i = some node) (hp : node.parent = none)
    (hprev : node.previous_sibling = none) (hnext : node.next_sibling = none) :
    t.detach i = Except.ok t
    ∧ (t.detach i >>= fun ta => ta.detach i) = Except.ok t := by
  have h1 := detach_unattached hget hp hprev hnext
  refine ⟨h1, ?_⟩
  rw [h1, except_ok_bind, h1]

/-- Witness for C8: detaching the lone root node twice. -/
theorem claim_c8_detach_noop_witness :
    ({ nodes := { items := [Entry.occupied 0 { parent := none, previous_sibling := none, next_sibling := none, first_child := none, last_child := none, data := 5 }], generation := 0, free_list_head := none, len := 1 }, root_index := some ⟨0,0⟩ } : VecTree Nat).detach ⟨0,0⟩
      = Except.ok { nodes := { items := [Entry.occupied 0 { parent := none, previous_sibling := none, next_sibling := none, first_child := none, last_child := none, data := 5 }], generation := 0, free_list_head := none, len := 1 }, root_index := some ⟨0,0⟩ } :=
  (claim_c8_detach_noop _ ⟨0,0⟩
    { parent := none, previous_sibling := none, next_sibling := none, first_child := none, last_child := none, data := 5 }
    (by decide) rfl rfl rfl).1

/-- C9: for a stale or absent handle, children, descendants and
descendants_with_depth fail abruptly at the infallible arena index lookup
(children immediately, the descendant iterators on their first step), while
get, get_mut, contains, parent and remove report absence non-abruptly for the
same handle, remove leaving the tree unchanged. -/
theorem claim_c9_stale_iteration_fails_abruptly {V : Type} (t : VecTree V) (h : Ix)
    (fuel : Nat) (hc : t.contains h = false) :
    t.children h fuel = Except.error "called Option::unwrap() on a None value"
    ∧ t.descendants h (fuel+1) = Except.error "called Option::unwrap() on a None value"
    ∧ t.descendants_with_depth h (fuel+1) = Except.error "called Option::unwrap() on a None value"
    ∧ t.get h = none
    ∧ t.get_mut h = none
    ∧ t.parent h = none
    ∧ t.remove h fuel = Except.ok (none, t) := by
  have hn : t.nodes.get h = none := by
    cases hg : t.nodes.get h with
    | none => rfl
    | some nd =>
      unfold VecTree.contains at hc
      rw [hg] at hc
      exact absurd hc (by simp)
  refine ⟨children_stale hn fuel, descendants_stale hn fuel,
    descendants_with_depth_stale hn fuel, ?_, ?_, ?_, remove_not_contains fuel hc⟩
  · simp [VecTree.get, hn]
  · simp [VecTree.get_mut, hn]
  · simp [VecTree.parent, hn]

/-- Witness for C9: a never-allocated handle in a one-node tree. -/
theorem claim_c9_stale_iteration_fails_abruptly_witness :
    ({ nodes := { items := [Entry.occupied 0 { parent := none, previous_sibling := none, next_sibling := none, first_child := none, last_child := none, data := 5 }], generation := 0, free_list_head := none, len := 1 }, root_index := some ⟨0,0⟩ } : VecTree Nat).contains ⟨1,0⟩ = false
    ∧ ({ nodes := { items := [Entry.occupied 0 { parent := none, previous_sibling := none, next_sibling := none, first_child := none, last_child := none, data := 5 }], generation := 0, free_list_head := none, len := 1 }, root_index := some ⟨0,0⟩ } : VecTree Nat).children ⟨1,0⟩ 5
      = Except.error "called Option::unwrap() on a None value" :=
  ⟨by decide,
    (claim_c9_stale_iteration_fails_abruptly _ ⟨1,0⟩ 5 (by decide)).1⟩

/-- C5 counterexample: for the live attached node c, append_child(c, c) is
not stopped by an explicit pre-check in the tree code: detach(c) already runs
(the state carried by the failure differs from the pre-call tree — the root
has lost its child and c its parent), and the rejection that then fires is
the generation assertion of the arena get2_mut access, not a tree-level
check.  This refutes the claim as stated; the call still never leaves c as
its own parent. -/
theorem claim_c5_counterexample :
    ((do
      let (r, t) ← (VecTree.new Nat).insert_root 0
      let (c, t) ← t.insert 1 r
      Except.ok (match t.append_child c c with
        | Except.error (msg, t2) =>
          some (msg, decide (t2 = t), t2.parent c, t.parent c, t2.children r 20)
        | Except.ok _ => none))
    = Except.ok (some ("assertion failed: i1.generation != i2.generation", false,
        none, some ⟨0,0⟩, Except.ok []))) := by
  decide

/-- C5 amended: for every live node n, append_child(n, n) first detaches n
and is then rejected abruptly by the arena get2_mut generation assertion
(there is no explicit self-append check in the tree code); the state at the
failure is the detached state and n is never made its own parent — its parent
link is in fact cleared. -/
theorem claim_c5_self_append_rejected_by_arena {V : Type} (t t1 : VecTree V) (n : Ix)
    (node : Node V) (hget : t.nodes.get n = some node)
    (hdet : t.detach n = Except.ok t1) :
    t.append_child n n =
      Except.error ("assertion failed: i1.generation != i2.generation", t1)
    ∧ (t1.nodes.get n).map Node.parent = some none :=
  ⟨append_child_self hdet, detach_ok_parent_none hget hdet⟩

/-- Witness for the amended C5: self-append of a lone (unattached) root. -/
theorem claim_c5_self_append_rejected_by_arena_witness :
    ({ nodes := { items := [Entry.occupied 0 { parent := none, previous_sibling := none, next_sibling := none, first_child := none, last_child := none, data := 5 }], generation := 0, free_list_head := none, len := 1 }, root_index := some ⟨0,0⟩ } : VecTree Nat).detach ⟨0,0⟩ = Except.ok { nodes := { items := [Entry.occupied 0 { parent := none, previous_sibling := none, next_sibling := none, first_child := none, last_child := none, data := 5 }], generation := 0, free_list_head := none, len := 1 }, root_index := some ⟨0,0⟩ }
    ∧ ({ nodes := { items := [Entry.occupied 0 { parent := none, previous_sibling := none, next_sibling := none, first_child := none, last_child := none, data := 5 }], generation := 0, free_list_head := none, len := 1 }, root_index := some ⟨0,0⟩ } : VecTree Nat).append_child ⟨0,0⟩ ⟨0,0⟩
      = Except.error ("assertion failed: i1.generation != i2.generation",
        { nodes := { items := [Entry.occupied 0 { parent := none, previous_sibling := none, next_sibling := none, first_child := none, last_child := none, data := 5 }], generation := 0, free_list_head := none, len := 1 }, root_index := some ⟨0,0⟩ }) :=
  ⟨by decide,
    (claim_c5_self_append_rejected_by_arena _ _ ⟨0,0⟩
      { parent := none, previous_sibling := none, next_sibling := none, first_child := none, last_child := none, data := 5 }
      (by decide) (by decide)).1⟩

/-- C6 counterexample: with a root already present, try_insert_root does not
surface the second-root error as a typed failure returning the payload — it
fails abruptly (the "A root node already exists" panic), exactly like
insert_root; the tree is unchanged at the failure. -/
theorem claim_c6_counterexample :
    ((do
      let (r, t) ← (VecTree.new Nat).insert_root 0
      Except.ok (r,
        (match t.try_insert_root 99 with
          | Except.error (msg, t2) => some (msg, decide (t2 = t))
          | Except.ok _ => none),
        (match t.insert_root 99 with
          | Except.error (msg, t2) => some (msg, decide (t2 = t))
          | Except.ok _ => none)))
    = Except.ok (⟨0,0⟩,
        some ("A root node already exists", true),
        some ("A root node already exists", true))) := by
  decide

/-- C6 amended: while a root exists, try_insert_root and insert_root both
fail abruptly with the same second-root panic, before any mutation: the tree
state carried at the failure is exactly the pre-call state. -/
theorem claim_c6_second_root_fails_abruptly {V : Type} (t : VecTree V) (r : Ix) (v : V)
    (h : t.root_index = some r) :
    t.try_insert_root v = Except.error ("A root node already exists", t)
    ∧ t.insert_root v = Except.error ("A root node already exists", t) :=
  ⟨try_insert_root_second h v, insert_root_second h v⟩

/-- Witness for the amended C6: a one-node tree with its root present. -/
theorem claim_c6_second_root_fails_abruptly_witness :
    ({ nodes := { items := [Entry.occupied 0 { parent := none, previous_sibling := none, next_sibling := none, first_child := none, last_child := none, data := 5 }], generation := 0, free_list_head := none, len := 1 }, root_index := some ⟨0,0⟩ } : VecTree Nat).root_index = some ⟨0,0⟩
    ∧ ({ nodes := { items := [Entry.occupied 0 { parent := none, previous_sibling := none, next_sibling := none, first_child := none, last_child := none, data := 5 }], generation := 0, free_list_head := none, len := 1 }, root_index := some ⟨0,0⟩ } : VecTree Nat).try_insert_root 9
      = Except.error ("A root node already exists",
        { nodes := { items := [Entry.occupied 0 { parent := none, previous_sibling := none, next_sibling := none, first_child := none, last_child := none, data := 5 }], generation := 0, free_list_head := none, len := 1 }, root_index := some ⟨0,0⟩ }) :=
  ⟨rfl, (claim_c6_second_root_fails_abruptly _ ⟨0,0⟩ 9 rfl).1⟩

/-- C2 counterexample: append_child with a stale parent handle and a live,
attached child is not all-or-nothing: detach(child) completes before the
validation panic, so the state observable at the failure differs from the
pre-call state (the child has left the root child list and lost its parent
link). -/
theorem claim_c2_counterexample :
    ((do
      let (r, t) ← (VecTree.new Nat).insert_root 0
      let (c, t) ← t.insert 1 r
      Except.ok (match t.append_child ⟨5,0⟩ c with
        | Except.error (msg, t2) =>
          some (msg, decide (t2 = t), t2.children r 20, t2.parent c)
        | Except.ok _ => none))
    = Except.ok (some ("The node you are trying to append to is invalid", false,
        Except.ok [], none))) := by
  decide

/-- C2 amended: remove on a stale handle, a second insert_root or
try_insert_root, a full-arena try_insert, and append_child or detach on a
stale child handle are all all-or-nothing (failures carry the unchanged
pre-call state); but append_child whose child detach succeeded and whose
parent endpoint is then found stale fails with the already-detached state —
the one mutation the failing call does not roll back. -/
theorem claim_c2_mutators_atomic_except_append :
    (∀ (W : Type) (t : VecTree W) (h : Ix) (fuel : Nat),
      t.contains h = false → t.remove h fuel = Except.ok (none, t))
    ∧ (∀ (W : Type) (t : VecTree W) (r : Ix) (v : W),
      t.root_index = some r →
        t.try_insert_root v = Except.error ("A root node already exists", t)
        ∧ t.insert_root v = Except.error ("A root node already exists", t))
    ∧ (∀ (W : Type) (t : VecTree W) (v : W) (p : Ix),
      t.nodes.free_list_head = none → t.try_insert v p = Except.ok (Sum.inr v, t))
    ∧ (∀ (W : Type) (t : VecTree W) (p c : Ix),
      t.nodes.get c = none →
        t.append_child p c = Except.error ("called Option::unwrap() on a None value", t)
        ∧ t.detach c = Except.error ("called Option::unwrap() on a None value", t))
    ∧ (∀ (W : Type) (t t1 : VecTree W) (p c : Ix),
      t.detach c = Except.ok t1 → p.index ≠ c.index → t1.nodes.get p = none →
        t.append_child p c =
          Except.error ("The node you are trying to append to is invalid", t1)) := by
  refine ⟨?_, ?_, ?_, ?_, ?_⟩
  · intro W t h fuel hc
    exact remove_not_contains fuel hc
  · intro W t r v h
    exact ⟨try_insert_root_second h v, insert_root_second h v⟩
  · intro W t v p h
    exact try_insert_full h v p
  · intro W t p c h
    exact ⟨append_child_stale_child h, detach_stale h⟩
  · intro W t t1 p c hdet hpc hp
    exact append_child_stale_parent hdet hpc hp

/-- Witness for the amended C2: stale-handle remove on a one-node tree. -/
theorem claim_c2_mutators_atomic_except_append_witness :
    ({ nodes := { items := [Entry.occupied 0 { parent := none, previous_sibling := none, next_sibling := none, first_child := none, last_child := none, data := 5 }], generation := 0, free_list_head := none, len := 1 }, root_index := some ⟨0,0⟩ } : VecTree Nat).contains ⟨1,0⟩ = false
    ∧ ({ nodes := { items := [Entry.occupied 0 { parent := none, previous_sibling := none, next_sibling := none, first_child := none, last_child := none, data := 5 }], generation := 0, free_list_head := none, len := 1 }, root_index := some ⟨0,0⟩ } : VecTree Nat).remove ⟨1,0⟩ 4
      = Except.ok (none, { nodes := { items := [Entry.occupied 0 { parent := none, previous_sibling := none, next_sibling := none, first_child := none, last_child := none, data := 5 }], generation := 0, free_list_head := none, len := 1 }, root_index := some ⟨0,0⟩ }) :=
  ⟨by decide,
    claim_c2_mutators_atomic_except_append.1 Nat _ ⟨1,0⟩ 4 (by decide)⟩

/-- C4: for the tree 0→[1→[4→[6],5], 2→[7], 3] built in that insertion
order, descendants_with_depth of the root yields exactly
[(0,0),(1,1),(4,2),(6,3),(5,2),(2,1),(7,2),(3,1)] (as handles and as
payloads); and in general, on any represented subtree, descendants and
descendants_with_depth enumerate the traversal root and its descendants in
pre-order depth-first order with each depth equal to the number of parent
hops back to the traversal root, every surfaced result is a Start edge of the
underlying edge traversal, and whenever the iterator succeeds its first
result is the traversal root at depth 0. -/
theorem claim_c4_preorder_enumeration :
    ((do
      let (r, t) ← (VecTree.new Nat).insert_root 0
      let (n1, t) ← t.insert 1 r
      let (n2, t) ← t.insert 2 r
      let (n3, t) ← t.insert 3 r
      let (n4, t) ← t.insert 4 n1
      let (n5, t) ← t.insert 5 n1
      let (n6, t) ← t.insert 6 n4
      let (n7, t) ← t.insert 7 n2
      Except.ok (r, n1, n2, n3, n4, n5, n6, n7,
        t.descendants_with_depth r 20,
        (t.descendants_with_depth r 20).map (fun l => l.map (fun q => (t.get q.1, q.2))),
        t.descendants r 20))
    = Except.ok (⟨0,0⟩, ⟨1,0⟩, ⟨2,0⟩, ⟨3,0⟩, ⟨4,0⟩, ⟨5,0⟩, ⟨6,0⟩, ⟨7,0⟩,
        Except.ok [(⟨0,0⟩,0), (⟨1,0⟩,1), (⟨4,0⟩,2), (⟨6,0⟩,3), (⟨5,0⟩,2),
          (⟨2,0⟩,1), (⟨7,0⟩,2), (⟨3,0⟩,1)],
        Except.ok [(some 0,0), (some 1,1), (some 4,2), (some 6,3), (some 5,2),
          (some 2,1), (some 7,2), (some 3,1)],
        Except.ok [⟨0,0⟩, ⟨1,0⟩, ⟨4,0⟩, ⟨6,0⟩, ⟨5,0⟩, ⟨2,0⟩, ⟨7,0⟩, ⟨3,0⟩]))
    ∧ (∀ (V : Type) (t : VecTree V) (root : Ix) (node : Node V) (cs : HForest V) (fuel : Nat),
      t.nodes.get root = some node →
      RepF t root node.first_child cs →
      (∀ m, m ∈ cs.handles → m ≠ root) →
        t.descendants_with_depth root (2 * (HTree.node root node.data cs).size + fuel)
          = Except.ok ((HTree.node root node.data cs).preorder 0)
        ∧ t.descendants root (2 * (HTree.node root node.data cs).size + fuel)
          = Except.ok (((HTree.node root node.data cs).preorder 0).map Prod.fst)
        ∧ ∀ (m : Ix) (k : Nat), (m, k) ∈ (HTree.node root node.data cs).preorder 0 →
            parent_iter t k m = some root)
    ∧ (∀ (V : Type) (t : VecTree V) (i : Ix) (fuel : Nat) (l : List (Ix × Nat)),
      t.descendants_with_depth i fuel = Except.ok l → l.head? = some (i, 0))
    ∧ (∀ (V : Type) (t : VecTree V) (i : Ix) (fuel : Nat)
        (es : List NodeEdgeWithDepth) (l : List (Ix × Nat)),
      t.traverse_with_depth i fuel = Except.ok es →
      t.descendants_with_depth i fuel = Except.ok l →
      ∀ q, q ∈ l → NodeEdgeWithDepth.Start q.1 q.2 ∈ es) := by
  refine ⟨by decide, ?_, ?_, ?_⟩
  · intro V t root node cs fuel hget hrep hh
    refine ⟨descendants_with_depth_refines hget hrep hh fuel,
      descendants_refines hget hrep hh fuel, ?_⟩
    intro m k hm
    simp only [HTree.preorder, List.mem_cons, Prod.mk.injEq] at hm
    rcases hm with ⟨h1, h2⟩ | hm
    · subst h1
      subst h2
      rfl
    · obtain ⟨hle, hpi⟩ := repf_preorder_dist hrep 1 m k hm
      have harith : k - 1 + 1 = k := by omega
      rw [← harith]
      exact hpi
  · intro V t i fuel l hd
    exact descendants_with_depth_head hd
  · intro V t i fuel es l ht hd
    exact descendants_with_depth_only_starts ht hd

/-- Witness for C4: the general clause applied to a one-node represented
tree. -/
theorem claim_c4_preorder_enumeration_witness :
    ({ nodes := { items := [Entry.occupied 0 { parent := none, previous_sibling := none, next_sibling := none, first_child := none, last_child := none, data := 5 }], generation := 0, free_list_head := none, len := 1 }, root_index := some ⟨0,0⟩ } : VecTree Nat).nodes.get ⟨0,0⟩ = some { parent := none, previous_sibling := none, next_sibling := none, first_child := none, last_child := none, data := 5 }
    ∧ RepF ({ nodes := { items := [Entry.occupied 0 { parent := none, previous_sibling := none, next_sibling := none, first_child := none, last_child := none, data := 5 }], generation := 0, free_list_head := none, len := 1 }, root_index := some ⟨0,0⟩ } : VecTree Nat) ⟨0,0⟩ none HForest.nil
    ∧ ({ nodes := { items := [Entry.occupied 0 { parent := none, previous_sibling := none, next_sibling := none, first_child := none, last_child := none, data := 5 }], generation := 0, free_list_head := none, len := 1 }, root_index := some ⟨0,0⟩ } : VecTree Nat).descendants_with_depth ⟨0,0⟩ (2 * (HTree.node ⟨0,0⟩ 5 HForest.nil).size + 3)
      = Except.ok ((HTree.node (⟨0,0⟩ : Ix) 5 HForest.nil).preorder 0) :=
  ⟨by decide, RepF.nil ⟨0,0⟩,
    (claim_c4_preorder_enumeration.2.1 Nat _ ⟨0,0⟩
      { parent := none, previous_sibling := none, next_sibling := none, first_child := none, last_child := none, data := 5 }
      HForest.nil 3 (by decide) (RepF.nil ⟨0,0⟩) (by intro m hm; simp [HForest.handles] at hm)).1⟩

/-- C10: on any represented (unmodified) subtree, the depth-annotated
traversal succeeds and yields exactly the edge sequence of the subtree — in
particular the guarded u32 subtraction depth - 1 is never evaluated at depth
0, since that would fail abruptly; every End edge carries a depth equal to
the number of parent hops from its node back to the traversal root; and an
End edge at depth 0 occurs only for the traversal root itself, which
terminates the iteration. -/
theorem claim_c10_depth_never_underflows {V : Type} (t : VecTree V) (root : Ix)
    (node : Node V) (cs : HForest V) (fuel : Nat)
    (hget : t.nodes.get root = some node)
    (hrep : RepF t root node.first_child cs)
    (hh : ∀ m, m ∈ cs.handles → m ≠ root) :
    t.traverse_with_depth root (2 * (HTree.node root node.data cs).size + fuel)
      = Except.ok ((HTree.node root node.data cs).edges 0)
    ∧ (∀ (m : Ix) (k : Nat),
        NodeEdgeWithDepth.End m k ∈ (HTree.node root node.data cs).edges 0 →
        parent_iter t k m = some root)
    ∧ (∀ m : Ix,
        NodeEdgeWithDepth.End m 0 ∈ (HTree.node root node.data cs).edges 0 → m = root) := by
  refine ⟨traverse_with_depth_refines hget hrep hh fuel, ?_, ?_⟩
  · intro m k hm
    simp only [HTree.edges, List.mem_cons, List.mem_append] at hm
    rcases hm with hm | hm | hm | hm
    · exact absurd hm (by simp)
    · obtain ⟨hle, hpi⟩ := repf_preorder_dist hrep 1 m k (repf_end_edges hrep 1 m k hm)
      have harith : k - 1 + 1 = k := by omega
      rw [← harith]
      exact hpi
    · injection hm with hm1 hm2
      subst hm1
      subst hm2
      rfl
    · exact absurd hm (by simp)
  · intro m hm
    simp only [HTree.edges, List.mem_cons, List.mem_append] at hm
    rcases hm with hm | hm | hm | hm
    · exact absurd hm (by simp)
    · obtain ⟨hle, _⟩ := repf_preorder_dist hrep 1 m 0 (repf_end_edges hrep 1 m 0 hm)
      omega
    · injection hm with hm1 hm2
    · exact absurd hm (by simp)

/-- Witness for C10: the traversal of a one-node represented tree. -/
theorem claim_c10_depth_never_underflows_witness :
    ({ nodes := { items := [Entry.occupied 0 { parent := none, previous_sibling := none, next_sibling := none, first_child := none, last_child := none, data := 5 }], generation := 0, free_list_head := none, len := 1 }, root_index := some ⟨0,0⟩ } : VecTree Nat).nodes.get ⟨0,0⟩ = some { parent := none, previous_sibling := none, next_sibling := none, first_child := none, last_child := none, data := 5 }
    ∧ ({ nodes := { items := [Entry.occupied 0 { parent := none, previous_sibling := none, next_sibling := none, first_child := none, last_child := none, data := 5 }], generation := 0, free_list_head := none, len := 1 }, root_index := some ⟨0,0⟩ } : VecTree Nat).traverse_with_depth ⟨0,0⟩ (2 * (HTree.node ⟨0,0⟩ 5 HForest.nil).size + 2)
      = Except.ok ((HTree.node (⟨0,0⟩ : Ix) 5 HForest.nil).edges 0) :=
  ⟨by decide,
    (claim_c10_depth_never_underflows _ ⟨0,0⟩
      { parent := none, previous_sibling := none, next_sibling := none, first_child := none, last_child := none, data := 5 }
      HForest.nil 2 (by decide) (RepF.nil ⟨0,0⟩)
      (by intro m hm; simp [HForest.handles] at hm)).1⟩
